import Mathlib

/-!
Verification of `zdgps_report.py`: a script that merges per-segment zDGPS
raw report files into one final report per DGPS system, selects the 24-hour
database segments belonging to a target Julian day, and builds per-system
header files from a flat configuration file.

Lines of text are modelled as `List Char` (the content of one line, without
its terminating newline, exactly as Python's `splitlines` / line iteration
delivers them).  Python's `str.split(sep)` for a one-character separator is
modelled by `pySplit`; Python's `str.startswith(c)` for a one-character
prefix by `startsWithChar`.  Out-of-range list indexing (Python `IndexError`)
is modelled by `Except String`, every failure carrying the message
`"list index out of range"`.  File writes are modelled by returning the
`(file name, file content)` pair that the script would write.
-/

/-- One line of text, without its trailing newline. -/
abbrev Line := List Char

/-- Python `row.startswith(c)` for a single character `c`:
true iff the line is nonempty and its first character is `c`. -/
def startsWithChar (c : Char) : Line → Bool
  | [] => false
  | a :: _ => a = c

/-- Python `s.split(sep)` for a one-character separator: always returns a
nonempty list of fields; `pySplit sep [] = [[]]` just as `''.split(sep)`
returns `['']`. -/
def pySplit (sep : Char) : Line → List Line
  | [] => [[]]
  | c :: cs =>
    match pySplit sep cs with
    | [] => [[]]
    | g :: gs => if c = sep then [] :: g :: gs else (c :: g) :: gs

/-- The mutable state of `create_final_report`'s classification loop:
`header_lines`, `data_lines` and the running `source_line` accumulator. -/
structure MergeState where
  header : List Line
  data : List Line
  source : Line
deriving DecidableEq

/-- The initial `source_line = 'Source file(s)'` of `create_final_report`. -/
def initSource : Line := "Source file(s)".data

/-- The state of `create_final_report` before any raw file is processed:
empty `header_lines`, empty `data_lines`, `source_line = 'Source file(s)'`. -/
def initState : MergeState := ⟨[], [], initSource⟩

/-- One iteration of the row-classification loop of `create_final_report`
(source lines 191-204): a row starting with `*`, `D` or `"` is appended
verbatim (plus newline) to `header_lines`; a row starting with `S` extracts
the second comma-separated field (`IndexError` when there is no comma),
extends the running `source_line` with it, and appends the updated
`source_line` to `header_lines`; any other row goes to `data_lines`. -/
def processRow (st : MergeState) (row : Line) : Except String MergeState :=
  if startsWithChar '*' row then
    .ok { st with header := st.header ++ [row ++ ['\n']] }
  else if startsWithChar 'D' row then
    .ok { st with header := st.header ++ [row ++ ['\n']] }
  else if startsWithChar 'S' row then
    match (pySplit ',' row)[1]? with
    | none => .error "list index out of range"
    | some fld =>
      let src := st.source ++ ',' :: fld
      .ok { header := st.header ++ [src ++ ['\n']], data := st.data, source := src }
  else if startsWithChar '"' row then
    .ok { st with header := st.header ++ [row ++ ['\n']] }
  else
    .ok { st with data := st.data ++ [row ++ ['\n']] }

/-- The row loop `for row in cat_lines` of `create_final_report`. -/
def processRows (st : MergeState) : List Line → Except String MergeState
  | [] => .ok st
  | r :: rs =>
    match processRow st r with
    | .error e => .error e
    | .ok st1 => processRows st1 rs

/-- Processing of one raw report file inside `create_final_report`'s file
loop (source lines 181-204): `header_lines` is emptied by the slice
assignment `header_lines[:] = []`, the last line of the file is dropped
unconditionally (`cat_lines = cat_lines[:-1]`), then every remaining row is
classified.  `data_lines` and `source_line` persist across files. -/
def processFile (st : MergeState) (file : List Line) : Except String MergeState :=
  processRows { header := [], data := st.data, source := st.source } file.dropLast

/-- The file loop `for line in output.splitlines()` of `create_final_report`,
over the raw files' contents in discovery order. -/
def processFiles (st : MergeState) : List (List Line) → Except String MergeState
  | [] => .ok st
  | f :: fs =>
    match processFile st f with
    | .error e => .error e
    | .ok st1 => processFiles st1 fs

/-- `create_final_report(system, year, julian_day)` over the contents of the
raw report files discovered for this system and day, in discovery order.
Returns the `(file name, lines)` pair written by `write_file`:
name `<system>_zDGPS.<year>_<julian_day>`, content `header_lines + data_lines`. -/
def create_final_report (system year julian_day : Line)
    (files : List (List Line)) : Except String (Line × List Line) :=
  match processFiles initState files with
  | .error e => .error e
  | .ok st =>
    .ok (system ++ "_zDGPS.".data ++ year ++ "_".data ++ julian_day,
         st.header ++ st.data)

/-- The accumulator loop of `get_prhrep_list` (source lines 221-225): each
catalogue line is split on `_`; indexing field 2 of a line with fewer than
three fields raises `IndexError`; lines whose field 2 equals the Julian day
are appended to the result. -/
def prhrepLoop (julian_day : Line) (acc : List Line) :
    List Line → Except String (List Line)
  | [] => .ok acc
  | l :: ls =>
    match (pySplit '_' l)[2]? with
    | none => .error "list index out of range"
    | some fld =>
      if fld = julian_day then prhrepLoop julian_day (acc ++ [l]) ls
      else prhrepLoop julian_day acc ls

/-- `get_prhrep_list(julian_day)` over the catalogue of 24-hour database
identifiers returned by `orca_prhrep -list`, one per line. -/
def get_prhrep_list (catalogue : List Line) (julian_day : Line) :
    Except String (List Line) :=
  prhrepLoop julian_day [] catalogue

/-- The decorative line of asterisks used by `create_header`. -/
def starsLine : Line := "*******************************************\n".data

/-- The fixed second header line of `create_header`. -/
def officeLine : Line := "* zDGPS Report for PGS office\n".data

/-- The config loop of `create_header` (source lines 113-119): nonempty
lines are split on `,`; a `vessel` record appends `* Vessel: <field 1>`,
a `project` record appends `* Project: <field 1>`; a record with no second
field raises `IndexError`.  Config lines carry their trailing newline,
exactly as Python's file-line iteration delivers them. -/
def headerLoop (hdr : List Line) : List Line → Except String (List Line)
  | [] => .ok hdr
  | line :: rest =>
    if line = [] then headerLoop hdr rest
    else
      match pySplit ',' line with
      | [] => .error "list index out of range"
      | p0 :: ps =>
        if p0 = "vessel".data then
          match ps with
          | [] => .error "list index out of range"
          | v :: _ => headerLoop (hdr ++ ["* Vessel: ".data ++ v ++ ['\n']]) rest
        else if p0 = "project".data then
          match ps with
          | [] => .error "list index out of range"
          | p :: _ => headerLoop (hdr ++ ["* Project: ".data ++ p ++ ['\n']]) rest
        else headerLoop hdr rest

/-- `create_header(config_file, system)`: builds the header lines from the
whole configuration file and returns the `(file name, content)` pair written
by `write_file` (name `<system>.hdr`). -/
def create_header (config : List Line) (system : Line) :
    Except String (Line × List Line) :=
  match headerLoop [starsLine, officeLine] config with
  | .error e => .error e
  | .ok hdr =>
    .ok (system ++ ".hdr".data,
         hdr ++ ["* System: ".data ++ system ++ ['\n'], starsLine])

/-- The config loop of `get_dgps_systems` (source lines 133-138): every
nonempty `system` record appends its field 1 to the list of systems and
immediately calls `create_header` on the whole configuration file for it.
The accumulated `(file name, content)` header writes are returned alongside
the systems. -/
def dgpsLoop (config : List Line) (systems : List Line)
    (writes : List (Line × List Line)) :
    List Line → Except String (List Line × List (Line × List Line))
  | [] => .ok (systems, writes)
  | line :: rest =>
    if line = [] then dgpsLoop config systems writes rest
    else
      match pySplit ',' line with
      | [] => .error "list index out of range"
      | p0 :: ps =>
        if p0 = "system".data then
          match ps with
          | [] => .error "list index out of range"
          | sysname :: _ =>
            match create_header config sysname with
            | .error e => .error e
            | .ok w => dgpsLoop config (systems ++ [sysname]) (writes ++ [w]) rest
        else dgpsLoop config systems writes rest

/-- `get_dgps_systems(config_file)`: the list of declared DGPS systems and
the header files written for them. -/
def get_dgps_systems (config : List Line) :
    Except String (List Line × List (Line × List Line)) :=
  dgpsLoop config [] [] config

/-- A classified `S`-row is acceptable to `create_final_report` iff splitting
it on `,` yields a second field (the row contains a comma). -/
def rowOk (r : Line) : Bool :=
  !(startsWithChar 'S' r) || ((pySplit ',' r)[1]?).isSome

/-- The second comma-separated field of a row (empty when absent). -/
def pyField (r : Line) : Line := ((pySplit ',' r)[1]?).getD []

/-- What the rows of one file contribute to the running `source_line`:
`,<field 1>` for each `S`-row, in order. -/
def sourceTail (rows : List Line) : Line :=
  (rows.filter (startsWithChar 'S')).flatMap (fun r => ',' :: pyField r)

/-- A config line is a `vessel` record: nonempty with first field `vessel`. -/
def isVesselRecord (line : Line) : Bool :=
  line ≠ [] && (pySplit ',' line).headD [] = "vessel".data

/-- A config line is a `project` record: nonempty with first field `project`. -/
def isProjectRecord (line : Line) : Bool :=
  line ≠ [] && (pySplit ',' line).headD [] = "project".data

/-- A header line introducing the vessel name. -/
def isVesselLine (l : Line) : Bool := "* Vessel: ".data.isPrefixOf l

/-- A header line introducing the project name. -/
def isProjectLine (l : Line) : Bool := "* Project: ".data.isPrefixOf l

/-- C4: merging a single raw file with lines `*hdr1`, `Dinfo`, `S,seg1`,
`row1`, `row2`, `GARBAGE` yields exactly the header lines `*hdr1`, `Dinfo`,
`Source file(s),seg1` followed by the data lines `row1`, `row2`, each
newline-terminated, with the trailing `GARBAGE` line dropped before
classification. -/
theorem c4_single_file_merge :
    create_final_report "V1G1".data "2022".data "006".data
      [["*hdr1".data, "Dinfo".data, "S,seg1".data,
        "row1".data, "row2".data, "GARBAGE".data]]
    = .ok ("V1G1_zDGPS.2022_006".data,
        ["*hdr1\n".data, "Dinfo\n".data, "Source file(s),seg1\n".data,
         "row1\n".data, "row2\n".data]) := rfl

/-- C5: merging two raw files that contain one `S,seg1` line and one
`S,seg2` line respectively (each followed by its trailing artifact line)
yields the single source line `Source file(s),seg1,seg2`, not two separate
source lines. -/
theorem c5_two_files_single_source_line :
    create_final_report "V1G1".data "2022".data "006".data
      [["S,seg1".data, "g".data], ["S,seg2".data, "g".data]]
    = .ok ("V1G1_zDGPS.2022_006".data, ["Source file(s),seg1,seg2\n".data]) := rfl

/-- C8: merging an empty set of contributing raw files still produces the
final report write for `(system, year, julian day)`, with empty content and
no error. -/
theorem c8_empty_merge (system year julian_day : Line) :
    create_final_report system year julian_day []
    = .ok (system ++ "_zDGPS.".data ++ year ++ "_".data ++ julian_day, []) := rfl

/-- C7: the merge is deterministic in its inputs: two runs of
`create_final_report` for the same system, year and Julian day over the
same raw file contents in the same discovery order produce identical
output. -/
theorem c7_deterministic (system year julian_day : Line)
    (files1 files2 : List (List Line)) (h : files1 = files2) :
    create_final_report system year julian_day files1
    = create_final_report system year julian_day files2 := by rw [h]

/-- Witness for C7 at a concrete input. -/
theorem c7_deterministic_witness :
    create_final_report "V1G1".data "2022".data "006".data [["row1".data, "g".data]]
    = create_final_report "V1G1".data "2022".data "006".data [["row1".data, "g".data]] :=
  c7_deterministic "V1G1".data "2022".data "006".data
    [["row1".data, "g".data]] [["row1".data, "g".data]] rfl

/-- C3 counterexample: on the catalogue `SYS_24hr_2022_006_000000`,
`SYS_24hr_2022_007_000000` with Julian day `006`, `get_prhrep_list` returns
the empty list, not the claimed one-element list: the code compares
underscore-field index 2, which is `2022` for these identifiers. -/
theorem c3_counterexample :
    get_prhrep_list
      ["SYS_24hr_2022_006_000000".data, "SYS_24hr_2022_007_000000".data]
      "006".data
    = .ok [] ∧ ([] : List Line) ≠ ["SYS_24hr_2022_006_000000".data] :=
  ⟨rfl, by decide⟩

/-- C3 (amended): `get_prhrep_list` filters on underscore-field index 2.
On the spec's catalogue with day `006` it returns the empty list; on a
catalogue whose identifiers carry the day at field index 2
(`24hr_2022_006_000000`, `24hr_2022_007_000000`) it returns exactly the
first identifier. -/
theorem c3_day_field_at_index_two :
    get_prhrep_list
      ["SYS_24hr_2022_006_000000".data, "SYS_24hr_2022_007_000000".data]
      "006".data = .ok ([] : List Line)
    ∧ get_prhrep_list
      ["24hr_2022_006_000000".data, "24hr_2022_007_000000".data]
      "006".data = .ok ["24hr_2022_006_000000".data] := ⟨rfl, rfl⟩

/-- C1 counterexample: merging two raw files whose retained rows are `*h1`
and `*h2` respectively yields a final report containing only `*h2`: the
header accumulator is reset at each file boundary, so the first file's
classified header line does not appear. -/
theorem c1_counterexample :
    create_final_report "V1G1".data "2022".data "006".data
      [["*h1".data, "g".data], ["*h2".data, "g".data]]
    = .ok ("V1G1_zDGPS.2022_006".data, ["*h2\n".data])
    ∧ "*h1\n".data ∉ ["*h2\n".data] := ⟨rfl, by decide⟩

/-- C2 counterexample: a single raw file with two classified `S`-lines
(`S,a` and `S,b`) produces two source-provenance lines in the final output
(the intermediate partial append `Source file(s),a` leaks), so the final
report does not contain exactly one source line. -/
theorem c2_counterexample :
    create_final_report "V1G1".data "2022".data "006".data
      [["S,a".data, "S,b".data, "g".data]]
    = .ok ("V1G1_zDGPS.2022_006".data,
        ["Source file(s),a\n".data, "Source file(s),a,b\n".data])
    ∧ (["Source file(s),a\n".data, "Source file(s),a,b\n".data] : List Line).countP
        (startsWithChar 'S') ≠ 1 := ⟨rfl, by decide⟩

theorem startsWithChar_ne {a b : Char} {r : Line} (hne : b ≠ a)
    (h : startsWithChar a r = true) : startsWithChar b r = false := by
  cases r with
  | nil => simp [startsWithChar] at h
  | cons x xs =>
    simp only [startsWithChar, decide_eq_true_eq] at h
    simp only [startsWithChar, decide_eq_false_iff_not]
    subst h
    exact fun hab => hne hab.symm

theorem startsWithChar_append {c : Char} {r : Line} (t : Line)
    (h : startsWithChar c r = true) : startsWithChar c (r ++ t) = true := by
  cases r with
  | nil => simp [startsWithChar] at h
  | cons x xs => simpa [startsWithChar] using h

theorem startsWithChar_nl_append {c : Char} {r : Line} (hnl : ('\n' : Char) ≠ c)
    (h : startsWithChar c r = false) : startsWithChar c (r ++ ['\n']) = false := by
  cases r with
  | nil => simp [startsWithChar, hnl]
  | cons x xs => simpa [startsWithChar] using h


theorem sourceTail_cons_neg {r : Line} {rs : List Line}
    (h : startsWithChar 'S' r = false) :
    sourceTail (r :: rs) = sourceTail rs := by
  simp [sourceTail, List.filter_cons, h]

theorem sourceTail_cons_pos {r : Line} {rs : List Line}
    (h : startsWithChar 'S' r = true) :
    sourceTail (r :: rs) = (',' :: pyField r) ++ sourceTail rs := by
  simp [sourceTail, List.filter_cons, h]

theorem processRows_cons_star {r : Line} {rs : List Line} {st : MergeState}
    (h1 : startsWithChar '*' r = true) :
    processRows st (r :: rs)
    = processRows { st with header := st.header ++ [r ++ ['\n']] } rs := by
  simp [processRows, processRow, h1]

theorem processRows_cons_descr {r : Line} {rs : List Line} {st : MergeState}
    (h1 : startsWithChar '*' r = false) (h2 : startsWithChar 'D' r = true) :
    processRows st (r :: rs)
    = processRows { st with header := st.header ++ [r ++ ['\n']] } rs := by
  simp [processRows, processRow, h1, h2]

theorem processRows_cons_src_none {r : Line} {rs : List Line} {st : MergeState}
    (h1 : startsWithChar '*' r = false) (h2 : startsWithChar 'D' r = false)
    (h3 : startsWithChar 'S' r = true) (hg : (pySplit ',' r)[1]? = none) :
    processRows st (r :: rs) = .error "list index out of range" := by
  simp [processRows, processRow, h1, h2, h3, hg]

theorem processRows_cons_src_some {r : Line} {rs : List Line} {st : MergeState}
    {fld : Line}
    (h1 : startsWithChar '*' r = false) (h2 : startsWithChar 'D' r = false)
    (h3 : startsWithChar 'S' r = true) (hg : (pySplit ',' r)[1]? = some fld) :
    processRows st (r :: rs)
    = processRows ⟨st.header ++ [(st.source ++ ',' :: fld) ++ ['\n']],
        st.data, st.source ++ ',' :: fld⟩ rs := by
  simp [processRows, processRow, h1, h2, h3, hg]

theorem processRows_cons_quote {r : Line} {rs : List Line} {st : MergeState}
    (h1 : startsWithChar '*' r = false) (h2 : startsWithChar 'D' r = false)
    (h3 : startsWithChar 'S' r = false) (h4 : startsWithChar '"' r = true) :
    processRows st (r :: rs)
    = processRows { st with header := st.header ++ [r ++ ['\n']] } rs := by
  simp [processRows, processRow, h1, h2, h3, h4]

theorem processRows_cons_data {r : Line} {rs : List Line} {st : MergeState}
    (h1 : startsWithChar '*' r = false) (h2 : startsWithChar 'D' r = false)
    (h3 : startsWithChar 'S' r = false) (h4 : startsWithChar '"' r = false) :
    processRows st (r :: rs)
    = processRows { st with data := st.data ++ [r ++ ['\n']] } rs := by
  simp [processRows, processRow, h1, h2, h3, h4]

theorem row_cases {P : Prop} (r : Line)
    (hstar : startsWithChar '*' r = true → P)
    (hdescr : startsWithChar '*' r = false → startsWithChar 'D' r = true → P)
    (hsrc : startsWithChar '*' r = false → startsWithChar 'D' r = false →
      startsWithChar 'S' r = true → P)
    (hquote : startsWithChar '*' r = false → startsWithChar 'D' r = false →
      startsWithChar 'S' r = false → startsWithChar '"' r = true → P)
    (hdata : startsWithChar '*' r = false → startsWithChar 'D' r = false →
      startsWithChar 'S' r = false → startsWithChar '"' r = false → P) : P := by
  by_cases h1 : startsWithChar '*' r = true
  · exact hstar h1
  · have h1f : startsWithChar '*' r = false := by simpa using h1
    by_cases h2 : startsWithChar 'D' r = true
    · exact hdescr h1f h2
    · have h2f : startsWithChar 'D' r = false := by simpa using h2
      by_cases h3 : startsWithChar 'S' r = true
      · exact hsrc h1f h2f h3
      · have h3f : startsWithChar 'S' r = false := by simpa using h3
        by_cases h4 : startsWithChar '"' r = true
        · exact hquote h1f h2f h3f h4
        · exact hdata h1f h2f h3f (by simpa using h4)

theorem processRows_source {rows : List Line} {st st2 : MergeState}
    (h : processRows st rows = .ok st2) :
    st2.source = st.source ++ sourceTail rows := by
  induction rows generalizing st with
  | nil =>
    simp only [processRows, Except.ok.injEq] at h
    subst h
    simp [sourceTail]
  | cons r rs ih =>
    refine row_cases r ?_ ?_ ?_ ?_ ?_
    · intro h1
      rw [processRows_cons_star h1] at h
      have hS := startsWithChar_ne (show ('S' : Char) ≠ '*' by decide) h1
      simpa [sourceTail_cons_neg hS] using ih h
    · intro h1 h2
      rw [processRows_cons_descr h1 h2] at h
      have hS := startsWithChar_ne (show ('S' : Char) ≠ 'D' by decide) h2
      simpa [sourceTail_cons_neg hS] using ih h
    · intro h1 h2 h3
      cases hg : (pySplit ',' r)[1]? with
      | none =>
        rw [processRows_cons_src_none h1 h2 h3 hg] at h
        cases h
      | some fld =>
        rw [processRows_cons_src_some h1 h2 h3 hg] at h
        have hrec := ih h
        have hf : pyField r = fld := by simp [pyField, hg]
        simp [sourceTail_cons_pos h3, hf, hrec]
    · intro h1 h2 h3 h4
      rw [processRows_cons_quote h1 h2 h3 h4] at h
      simpa [sourceTail_cons_neg h3] using ih h
    · intro h1 h2 h3 h4
      rw [processRows_cons_data h1 h2 h3 h4] at h
      simpa [sourceTail_cons_neg h3] using ih h

theorem processRows_isOk (rows : List Line) (st : MergeState) :
    (processRows st rows).isOk = rows.all rowOk := by
  induction rows generalizing st with
  | nil => simp [processRows, Except.isOk, Except.toBool]
  | cons r rs ih =>
    refine row_cases r ?_ ?_ ?_ ?_ ?_
    · intro h1
      rw [processRows_cons_star h1]
      have hS := startsWithChar_ne (show ('S' : Char) ≠ '*' by decide) h1
      simp [ih, rowOk, hS]
    · intro h1 h2
      rw [processRows_cons_descr h1 h2]
      have hS := startsWithChar_ne (show ('S' : Char) ≠ 'D' by decide) h2
      simp [ih, rowOk, hS]
    · intro h1 h2 h3
      cases hg : (pySplit ',' r)[1]? with
      | none =>
        rw [processRows_cons_src_none h1 h2 h3 hg]
        simp [Except.isOk, Except.toBool, rowOk, h3, hg]
      | some fld =>
        rw [processRows_cons_src_some h1 h2 h3 hg]
        simp [ih, rowOk, h3, hg]
    · intro h1 h2 h3 h4
      rw [processRows_cons_quote h1 h2 h3 h4]
      simp [ih, rowOk, h3]
    · intro h1 h2 h3 h4
      rw [processRows_cons_data h1 h2 h3 h4]
      simp [ih, rowOk, h3]

theorem processRows_error_msg {rows : List Line} {st : MergeState} {e : String}
    (h : processRows st rows = .error e) : e = "list index out of range" := by
  induction rows generalizing st with
  | nil => simp [processRows] at h
  | cons r rs ih =>
    refine row_cases r ?_ ?_ ?_ ?_ ?_
    · intro h1
      rw [processRows_cons_star h1] at h
      have hrec := ih h
      exact hrec
    · intro h1 h2
      rw [processRows_cons_descr h1 h2] at h
      have hrec := ih h
      exact hrec
    · intro h1 h2 h3
      cases hg : (pySplit ',' r)[1]? with
      | none =>
        rw [processRows_cons_src_none h1 h2 h3 hg] at h
        cases h
        rfl
      | some fld =>
        rw [processRows_cons_src_some h1 h2 h3 hg] at h
        have hrec := ih h
        exact hrec
    · intro h1 h2 h3 h4
      rw [processRows_cons_quote h1 h2 h3 h4] at h
      have hrec := ih h
      exact hrec
    · intro h1 h2 h3 h4
      rw [processRows_cons_data h1 h2 h3 h4] at h
      have hrec := ih h
      exact hrec

theorem processRows_header_mono {rows : List Line} {st st2 : MergeState}
    (h : processRows st rows = .ok st2) :
    ∃ t, st2.header = st.header ++ t := by
  induction rows generalizing st with
  | nil =>
    simp only [processRows, Except.ok.injEq] at h
    subst h
    exact ⟨[], by simp⟩
  | cons r rs ih =>
    refine row_cases r ?_ ?_ ?_ ?_ ?_
    · intro h1
      rw [processRows_cons_star h1] at h
      obtain ⟨t, ht⟩ := ih h
      exact ⟨[r ++ ['\n']] ++ t, by simpa using ht⟩
    · intro h1 h2
      rw [processRows_cons_descr h1 h2] at h
      obtain ⟨t, ht⟩ := ih h
      exact ⟨[r ++ ['\n']] ++ t, by simpa using ht⟩
    · intro h1 h2 h3
      cases hg : (pySplit ',' r)[1]? with
      | none =>
        rw [processRows_cons_src_none h1 h2 h3 hg] at h
        cases h
      | some fld =>
        rw [processRows_cons_src_some h1 h2 h3 hg] at h
        obtain ⟨t, ht⟩ := ih h
        exact ⟨[(st.source ++ ',' :: fld) ++ ['\n']] ++ t, by simpa using ht⟩
    · intro h1 h2 h3 h4
      rw [processRows_cons_quote h1 h2 h3 h4] at h
      obtain ⟨t, ht⟩ := ih h
      exact ⟨[r ++ ['\n']] ++ t, by simpa using ht⟩
    · intro h1 h2 h3 h4
      rw [processRows_cons_data h1 h2 h3 h4] at h
      have hrec := ih h
      exact hrec

theorem processRows_data_notS {rows : List Line} {st st2 : MergeState}
    (h : processRows st rows = .ok st2) :
    ∀ l ∈ st2.data, l ∈ st.data ∨ startsWithChar 'S' l = false := by
  induction rows generalizing st with
  | nil =>
    simp only [processRows, Except.ok.injEq] at h
    subst h
    exact fun l hl => Or.inl hl
  | cons r rs ih =>
    refine row_cases r ?_ ?_ ?_ ?_ ?_
    · intro h1
      rw [processRows_cons_star h1] at h
      have hrec := ih h
      exact hrec
    · intro h1 h2
      rw [processRows_cons_descr h1 h2] at h
      have hrec := ih h
      exact hrec
    · intro h1 h2 h3
      cases hg : (pySplit ',' r)[1]? with
      | none =>
        rw [processRows_cons_src_none h1 h2 h3 hg] at h
        cases h
      | some fld =>
        rw [processRows_cons_src_some h1 h2 h3 hg] at h
        have hrec := ih h
        exact hrec
    · intro h1 h2 h3 h4
      rw [processRows_cons_quote h1 h2 h3 h4] at h
      have hrec := ih h
      exact hrec
    · intro h1 h2 h3 h4
      rw [processRows_cons_data h1 h2 h3 h4] at h
      intro l hl
      have hrec := ih h
      rcases hrec l hl with hmem | hfalse
      · rcases List.mem_append.mp hmem with hmem2 | hsingle
        · exact Or.inl hmem2
        · right
          rw [List.mem_singleton.mp hsingle]
          exact startsWithChar_nl_append (by decide) h3
      · exact Or.inr hfalse

theorem processRows_header_countS {rows : List Line} {st st2 : MergeState}
    (h : processRows st rows = .ok st2)
    (hs : startsWithChar 'S' st.source = true) :
    st2.header.countP (startsWithChar 'S')
      = st.header.countP (startsWithChar 'S')
        + (rows.filter (startsWithChar 'S')).length := by
  induction rows generalizing st with
  | nil =>
    simp only [processRows, Except.ok.injEq] at h
    subst h
    simp
  | cons r rs ih =>
    refine row_cases r ?_ ?_ ?_ ?_ ?_
    · intro h1
      rw [processRows_cons_star h1] at h
      have hS := startsWithChar_ne (show ('S' : Char) ≠ '*' by decide) h1
      have hSnl := startsWithChar_nl_append (show ('\n' : Char) ≠ 'S' by decide) hS
      have hrec := ih h hs
      rw [hrec]
      simp [List.countP_append, List.countP_cons, hSnl, List.filter_cons, hS]
    · intro h1 h2
      rw [processRows_cons_descr h1 h2] at h
      have hS := startsWithChar_ne (show ('S' : Char) ≠ 'D' by decide) h2
      have hSnl := startsWithChar_nl_append (show ('\n' : Char) ≠ 'S' by decide) hS
      have hrec := ih h hs
      rw [hrec]
      simp [List.countP_append, List.countP_cons, hSnl, List.filter_cons, hS]
    · intro h1 h2 h3
      cases hg : (pySplit ',' r)[1]? with
      | none =>
        rw [processRows_cons_src_none h1 h2 h3 hg] at h
        cases h
      | some fld =>
        rw [processRows_cons_src_some h1 h2 h3 hg] at h
        have hs2 : startsWithChar 'S' (st.source ++ ',' :: fld) = true :=
          startsWithChar_append _ hs
        have hsnl : startsWithChar 'S' (st.source ++ ',' :: (fld ++ ['\n'])) = true :=
          startsWithChar_append _ hs
        have hrec := ih h hs2
        rw [hrec]
        simp [List.countP_append, List.countP_cons, hsnl, List.filter_cons, h3]
        omega
    · intro h1 h2 h3 h4
      rw [processRows_cons_quote h1 h2 h3 h4] at h
      have hSnl := startsWithChar_nl_append (show ('\n' : Char) ≠ 'S' by decide) h3
      have hrec := ih h hs
      rw [hrec]
      simp [List.countP_append, List.countP_cons, hSnl, List.filter_cons, h3]
    · intro h1 h2 h3 h4
      rw [processRows_cons_data h1 h2 h3 h4] at h
      have hrec := ih h hs
      rw [hrec]
      simp [List.filter_cons, h3]

theorem processRows_source_mem {rows : List Line} {st st2 : MergeState}
    (h : processRows st rows = .ok st2)
    (hone : (rows.filter (startsWithChar 'S')).length = 1) :
    st2.source ++ ['\n'] ∈ st2.header := by
  induction rows generalizing st with
  | nil => simp at hone
  | cons r rs ih =>
    refine row_cases r ?_ ?_ ?_ ?_ ?_
    · intro h1
      rw [processRows_cons_star h1] at h
      have hS := startsWithChar_ne (show ('S' : Char) ≠ '*' by decide) h1
      have hone2 : (rs.filter (startsWithChar 'S')).length = 1 := by
        simpa [List.filter_cons, hS] using hone
      exact ih h hone2
    · intro h1 h2
      rw [processRows_cons_descr h1 h2] at h
      have hS := startsWithChar_ne (show ('S' : Char) ≠ 'D' by decide) h2
      have hone2 : (rs.filter (startsWithChar 'S')).length = 1 := by
        simpa [List.filter_cons, hS] using hone
      exact ih h hone2
    · intro h1 h2 h3
      cases hg : (pySplit ',' r)[1]? with
      | none =>
        rw [processRows_cons_src_none h1 h2 h3 hg] at h
        cases h
      | some fld =>
        rw [processRows_cons_src_some h1 h2 h3 hg] at h
        have hnil : rs.filter (startsWithChar 'S') = [] := by
          have htmp := hone
          rw [List.filter_cons, if_pos h3] at htmp
          rw [List.length_cons] at htmp
          exact List.length_eq_zero.mp (by omega)
        have hsrc := processRows_source h
        have hst : sourceTail rs = [] := by simp [sourceTail, hnil]
        obtain ⟨t, ht⟩ := processRows_header_mono h
        rw [ht, hsrc]
        simp [hst]
    · intro h1 h2 h3 h4
      rw [processRows_cons_quote h1 h2 h3 h4] at h
      have hone2 : (rs.filter (startsWithChar 'S')).length = 1 := by
        simpa [List.filter_cons, h3] using hone
      exact ih h hone2
    · intro h1 h2 h3 h4
      rw [processRows_cons_data h1 h2 h3 h4] at h
      have hone2 : (rs.filter (startsWithChar 'S')).length = 1 := by
        simpa [List.filter_cons, h3] using hone
      exact ih h hone2

theorem processFile_isOk (st : MergeState) (f : List Line) :
    (processFile st f).isOk = f.dropLast.all rowOk :=
  processRows_isOk f.dropLast ⟨[], st.data, st.source⟩

theorem processFiles_append (st : MergeState) (fs : List (List Line)) (f : List Line) :
    processFiles st (fs ++ [f])
    = match processFiles st fs with
      | .error e => .error e
      | .ok st1 => processFile st1 f := by
  induction fs generalizing st with
  | nil =>
    cases hf : processFile st f with
    | error e => simp [processFiles, hf]
    | ok st1 => simp [processFiles, hf]
  | cons g gs ih =>
    cases hg : processFile st g with
    | error e => simp [processFiles, hg]
    | ok st1 => simp [processFiles, hg, ih]

theorem processFiles_isOk (files : List (List Line)) (st : MergeState) :
    (processFiles st files).isOk = files.all (fun f => f.dropLast.all rowOk) := by
  induction files generalizing st with
  | nil => simp [processFiles, Except.isOk, Except.toBool]
  | cons f fs ih =>
    cases hf : processFile st f with
    | error e =>
      have hfa := processFile_isOk st f
      rw [hf] at hfa
      have hfa2 : f.dropLast.all rowOk = false := by
        simpa [Except.isOk, Except.toBool] using hfa.symm
      simp [processFiles, hf, Except.isOk, Except.toBool, hfa2]
    | ok st1 =>
      have hfa := processFile_isOk st f
      rw [hf] at hfa
      have hfa2 : f.dropLast.all rowOk = true := by
        simpa [Except.isOk, Except.toBool] using hfa.symm
      simp [processFiles, hf, ih, hfa2]

theorem processFiles_error_msg {files : List (List Line)} {st : MergeState}
    {e : String} (h : processFiles st files = .error e) :
    e = "list index out of range" := by
  induction files generalizing st with
  | nil => simp [processFiles] at h
  | cons f fs ih =>
    simp only [processFiles] at h
    cases hf : processFile st f with
    | error e2 =>
      rw [hf] at h
      cases h
      exact processRows_error_msg hf
    | ok st1 =>
      rw [hf] at h
      exact ih h

theorem processFiles_source {files : List (List Line)} {st st2 : MergeState}
    (h : processFiles st files = .ok st2) :
    st2.source = st.source ++ files.flatMap (fun f => sourceTail f.dropLast) := by
  induction files generalizing st with
  | nil =>
    simp only [processFiles, Except.ok.injEq] at h
    subst h
    simp
  | cons f fs ih =>
    simp only [processFiles] at h
    cases hf : processFile st f with
    | error e =>
      rw [hf] at h
      cases h
    | ok st1 =>
      rw [hf] at h
      have hf2 : processRows (⟨[], st.data, st.source⟩ : MergeState) f.dropLast
          = .ok st1 := hf
      have h1 := processRows_source hf2
      have h2 := ih h
      rw [h2, h1]
      simp [List.flatMap_cons, List.append_assoc]

theorem processFiles_data_notS {files : List (List Line)} {st st2 : MergeState}
    (h : processFiles st files = .ok st2) :
    ∀ l ∈ st2.data, l ∈ st.data ∨ startsWithChar 'S' l = false := by
  induction files generalizing st with
  | nil =>
    simp only [processFiles, Except.ok.injEq] at h
    subst h
    exact fun l hl => Or.inl hl
  | cons f fs ih =>
    simp only [processFiles] at h
    cases hf : processFile st f with
    | error e =>
      rw [hf] at h
      cases h
    | ok st1 =>
      rw [hf] at h
      intro l hl
      rcases ih h l hl with hmem | hfalse
      · have hd := processRows_data_notS hf
        rcases hd l hmem with hmem2 | hfalse2
        · exact Or.inl hmem2
        · exact Or.inr hfalse2
      · exact Or.inr hfalse

theorem prhrepLoop_malformed {julian_day : Line} {catalogue : List Line}
    (h : ∃ l ∈ catalogue, (pySplit '_' l).length < 3) (acc : List Line) :
    prhrepLoop julian_day acc catalogue = .error "list index out of range" := by
  induction catalogue generalizing acc with
  | nil =>
    rcases h with ⟨l, hl, _⟩
    simp at hl
  | cons c cs ih =>
    rcases h with ⟨l, hl, hlen⟩
    rcases List.mem_cons.mp hl with heq | hmem
    · subst heq
      have hnone : (pySplit '_' l)[2]? = none := List.getElem?_eq_none (by omega)
      simp [prhrepLoop, hnone]
    · cases hg : (pySplit '_' c)[2]? with
      | none => simp [prhrepLoop, hg]
      | some fld =>
        by_cases hf : fld = julian_day
        · simp only [prhrepLoop, hg, hf, if_true]
          exact ih ⟨l, hmem, hlen⟩ (acc ++ [c])
        · simp only [prhrepLoop, hg, if_neg hf]
          exact ih ⟨l, hmem, hlen⟩ acc

/-- C9: whenever some catalogue line does not split on `_` into at least
three fields, `get_prhrep_list` fails with the `IndexError` rather than
silently including or excluding the malformed identifier. -/
theorem c9_malformed_identifier_fails {catalogue : List Line} {julian_day : Line}
    (h : ∃ l ∈ catalogue, (pySplit '_' l).length < 3) :
    get_prhrep_list catalogue julian_day = .error "list index out of range" :=
  prhrepLoop_malformed h []

/-- Witness for C9 at the one-line catalogue `A_B`. -/
theorem c9_malformed_identifier_fails_witness :
    get_prhrep_list ["A_B".data] "006".data = .error "list index out of range" :=
  c9_malformed_identifier_fails ⟨"A_B".data, by decide, by decide⟩

/-- C10: a raw file containing a classified `S`-row with no comma (so
`split(',')` has no field 1) makes the merge fail with the `IndexError`, so
no final report pair is produced. -/
theorem c10_s_row_without_comma_fails {system year julian_day : Line}
    {files : List (List Line)}
    (h : ∃ f ∈ files, ∃ r ∈ f.dropLast,
      startsWithChar 'S' r = true ∧ (pySplit ',' r)[1]? = none) :
    create_final_report system year julian_day files
    = .error "list index out of range" := by
  have hallF : files.all (fun f => f.dropLast.all rowOk) = false := by
    rcases h with ⟨f, hf, r, hr, hS, hg⟩
    rw [List.all_eq_false]
    refine ⟨f, hf, ?_⟩
    simp only [Bool.not_eq_true]
    rw [List.all_eq_false]
    exact ⟨r, hr, by simp [rowOk, hS, hg]⟩
  have hisok := processFiles_isOk files initState
  rw [hallF] at hisok
  cases hpf : processFiles initState files with
  | ok st =>
    rw [hpf] at hisok
    simp [Except.isOk, Except.toBool] at hisok
  | error e =>
    have hmsg := processFiles_error_msg hpf
    subst hmsg
    unfold create_final_report
    rw [hpf]

/-- Witness for C10 at a file whose retained row is `Sx`. -/
theorem c10_s_row_without_comma_fails_witness :
    create_final_report "V1G1".data "2022".data "006".data [["Sx".data, "g".data]]
    = .error "list index out of range" :=
  c10_s_row_without_comma_fails
    ⟨["Sx".data, "g".data], by decide, "Sx".data, by decide, by decide, by decide⟩

theorem processFiles_append_ok {st st1 : MergeState} {fs : List (List Line)}
    {f : List Line} (hfs : processFiles st fs = .ok st1) :
    processFiles st (fs ++ [f]) = processFile st1 f := by
  rw [processFiles_append, hfs]

theorem processFiles_append_err {st : MergeState} {fs : List (List Line)}
    {e : String} {f : List Line} (hfs : processFiles st fs = .error e) :
    processFiles st (fs ++ [f]) = .error e := by
  rw [processFiles_append, hfs]

/-- C1 (amended): the header accumulator is emptied at each file boundary,
so the final header section comes from the last contributing file alone:
for every successful merge over `fs ++ [f]`, the output is the header
produced by classifying `f` by itself (with the source accumulator inherited
from the earlier files) followed by the accumulated data lines; classified
header lines of the non-last files are discarded. -/
theorem c1_header_from_last_file {system year julian_day : Line}
    {fs : List (List Line)} {f : List Line} {name : Line} {out : List Line}
    (h : create_final_report system year julian_day (fs ++ [f]) = .ok (name, out)) :
    ∃ st1 st2, processFiles initState fs = .ok st1 ∧
      processRows ⟨[], st1.data, st1.source⟩ f.dropLast = .ok st2 ∧
      out = st2.header ++ st2.data := by
  unfold create_final_report at h
  cases hfs : processFiles initState fs with
  | error e =>
    rw [processFiles_append_err hfs] at h
    simp at h
  | ok st1 =>
    rw [processFiles_append_ok hfs] at h
    cases hf : processFile st1 f with
    | error e =>
      rw [hf] at h
      simp at h
    | ok st2 =>
      rw [hf] at h
      simp only [Except.ok.injEq, Prod.mk.injEq] at h
      exact ⟨st1, st2, rfl, hf, h.2.symm⟩

/-- Witness for C1 at a two-file merge. -/
theorem c1_header_from_last_file_witness :
    ∃ st1 st2,
      processFiles initState [["*h1".data, "g".data]] = .ok st1 ∧
      processRows ⟨[], st1.data, st1.source⟩
        (["*h2".data, "g".data] : List Line).dropLast = .ok st2 ∧
      ["*h2\n".data] = st2.header ++ st2.data :=
  c1_header_from_last_file
    (show create_final_report "V1G1".data "2022".data "006".data
        ([["*h1".data, "g".data]] ++ [["*h2".data, "g".data]])
      = .ok ("V1G1_zDGPS.2022_006".data, ["*h2\n".data]) from rfl)

/-- C2 (amended): provided every contributing raw file carries exactly one
classified `S`-row (after dropping its trailing line) and every `S`-row has
a comma, the merge succeeds and the final output contains exactly one
source-provenance line (a line starting with `S`), namely
`Source file(s)` followed by each contributing file's source field in
segment-processing order, newline-terminated.  Without the one-`S`-row-per-
file restriction the claim fails: intermediate partial appends leak when one
file holds several `S`-rows. -/
theorem c2_single_source_line {system year julian_day : Line}
    {files : List (List Line)}
    (hne : files ≠ [])
    (hone : ∀ f ∈ files, (f.dropLast.filter (startsWithChar 'S')).length = 1)
    (hok : ∀ f ∈ files, ∀ r ∈ f.dropLast, rowOk r = true) :
    ∃ name out, create_final_report system year julian_day files = .ok (name, out) ∧
      out.countP (startsWithChar 'S') = 1 ∧
      (initSource ++ files.flatMap (fun f => sourceTail f.dropLast)) ++ ['\n'] ∈ out := by
  have hall : files.all (fun f => f.dropLast.all rowOk) = true := by
    rw [List.all_eq_true]
    intro f hf
    rw [List.all_eq_true]
    exact hok f hf
  have hisok := processFiles_isOk files initState
  rw [hall] at hisok
  obtain ⟨stF, hstF⟩ : ∃ stF, processFiles initState files = .ok stF := by
    cases hpf : processFiles initState files with
    | error e =>
      rw [hpf] at hisok
      simp [Except.isOk, Except.toBool] at hisok
    | ok stF => exact ⟨stF, rfl⟩
  rcases List.eq_nil_or_concat files with hnil | ⟨gs, g, hcat⟩
  · exact absurd hnil hne
  subst hcat
  simp only [List.concat_eq_append] at hstF hone hok ⊢
  have hstF0 := hstF
  cases hfs : processFiles initState gs with
  | error e =>
    rw [processFiles_append_err hfs] at hstF
    simp at hstF
  | ok st1 =>
    rw [processFiles_append_ok hfs] at hstF
    have hg2 : processRows (⟨[], st1.data, st1.source⟩ : MergeState) g.dropLast
        = .ok stF := hstF
    have hmemg : g ∈ gs ++ [g] :=
      List.mem_append_right _ (List.mem_singleton.mpr rfl)
    have honeg : (g.dropLast.filter (startsWithChar 'S')).length = 1 := hone g hmemg
    have hS0 : startsWithChar 'S' initSource = true := by decide
    have hsrc1 : startsWithChar 'S' st1.source = true := by
      have hs := processFiles_source hfs
      rw [hs]
      exact startsWithChar_append _ hS0
    have hcnt : stF.header.countP (startsWithChar 'S') = 1 := by
      have hc := processRows_header_countS hg2 hsrc1
      rw [hc, honeg]
      simp
    have hmemh : stF.source ++ ['\n'] ∈ stF.header :=
      processRows_source_mem hg2 honeg
    have hsF : stF.source
        = initSource ++ (gs ++ [g]).flatMap (fun f => sourceTail f.dropLast) := by
      have h1 := processRows_source hg2
      have h2 := processFiles_source hfs
      rw [h1]
      simp [h2, initState, List.flatMap_append, List.append_assoc]
    have hdat : stF.data.countP (startsWithChar 'S') = 0 := by
      rw [List.countP_eq_zero]
      intro l hl
      rcases processFiles_data_notS hstF0 l hl with hmem0 | hfalse
      · simp [initState] at hmem0
      · simp [hfalse]
    refine ⟨system ++ "_zDGPS.".data ++ year ++ "_".data ++ julian_day,
           stF.header ++ stF.data, ?_, ?_, ?_⟩
    · unfold create_final_report
      rw [hstF0]
    · simp [List.countP_append, hcnt, hdat]
    · exact List.mem_append_left _ (hsF ▸ hmemh)

/-- Witness for C2 at a two-file merge with one `S`-row per file. -/
theorem c2_single_source_line_witness :
    ∃ name out,
      create_final_report "V1G1".data "2022".data "006".data
        [["S,seg1".data, "x1".data, "g".data], ["S,seg2".data, "g".data]]
      = .ok (name, out) ∧
      out.countP (startsWithChar 'S') = 1 ∧
      (initSource ++ ([["S,seg1".data, "x1".data, "g".data],
          ["S,seg2".data, "g".data]] : List (List Line)).flatMap
            (fun f => sourceTail f.dropLast)) ++ ['\n'] ∈ out :=
  c2_single_source_line (by decide) (by decide) (by decide)

theorem isPrefixOf_append_self (p t : Line) : p.isPrefixOf (p ++ t) = true :=
  List.isPrefixOf_iff_prefix.mpr (List.prefix_append p t)

theorem not_isPrefixOf_of_take_ne {p a : Line} (x : Line) (k : Nat)
    (hkp : k ≤ p.length) (hka : k ≤ a.length)
    (hne : p.take k ≠ a.take k) : p.isPrefixOf (a ++ x) = false := by
  rw [Bool.eq_false_iff]
  intro hpre
  have hp : p <+: a ++ x := List.isPrefixOf_iff_prefix.mp hpre
  have h1 : p = (a ++ x).take p.length := List.prefix_iff_eq_take.mp hp
  have h2 : p.take k = ((a ++ x).take p.length).take k := by rw [← h1]
  rw [List.take_take] at h2
  rw [Nat.min_eq_left hkp] at h2
  rw [List.take_append_of_le_length hka] at h2
  exact hne h2


theorem pySplit_ne_nil (sep : Char) (l : Line) : pySplit sep l ≠ [] := by
  cases l with
  | nil => simp [pySplit]
  | cons c cs =>
    simp only [pySplit]
    cases pySplit sep cs with
    | nil => simp
    | cons g gs =>
      by_cases h : c = sep <;> simp [h]

theorem headerLoop_cons_empty {line : Line} {rest hdr : List Line}
    (hemp : line = []) :
    headerLoop hdr (line :: rest) = headerLoop hdr rest := by
  simp [headerLoop, hemp]

theorem headerLoop_cons_vessel_err {line : Line} {rest hdr : List Line}
    (hemp : line ≠ []) (hsp : pySplit ',' line = ["vessel".data]) :
    headerLoop hdr (line :: rest) = .error "list index out of range" := by
  simp [headerLoop, hemp, hsp]

theorem headerLoop_cons_vessel {line : Line} {rest hdr : List Line}
    {v : Line} {ps : List Line}
    (hemp : line ≠ []) (hsp : pySplit ',' line = "vessel".data :: v :: ps) :
    headerLoop hdr (line :: rest)
    = headerLoop (hdr ++ ["* Vessel: ".data ++ v ++ ['\n']]) rest := by
  simp [headerLoop, hemp, hsp]

theorem headerLoop_cons_project_err {line : Line} {rest hdr : List Line}
    (hemp : line ≠ []) (hsp : pySplit ',' line = ["project".data]) :
    headerLoop hdr (line :: rest) = .error "list index out of range" := by
  simp [headerLoop, hemp, hsp]

theorem headerLoop_cons_project {line : Line} {rest hdr : List Line}
    {p : Line} {ps : List Line}
    (hemp : line ≠ []) (hsp : pySplit ',' line = "project".data :: p :: ps) :
    headerLoop hdr (line :: rest)
    = headerLoop (hdr ++ ["* Project: ".data ++ p ++ ['\n']]) rest := by
  simp [headerLoop, hemp, hsp]

theorem headerLoop_cons_other {line : Line} {rest hdr : List Line}
    {p0 : Line} {ps : List Line}
    (hemp : line ≠ []) (hsp : pySplit ',' line = p0 :: ps)
    (hv : p0 ≠ "vessel".data) (hp : p0 ≠ "project".data) :
    headerLoop hdr (line :: rest) = headerLoop hdr rest := by
  simp [headerLoop, hemp, hsp, hv, hp]

theorem headerLoop_countP_vessel {config : List Line} {hdr out : List Line}
    (h : headerLoop hdr config = .ok out) :
    out.countP isVesselLine
      = hdr.countP isVesselLine + config.countP isVesselRecord := by
  induction config generalizing hdr with
  | nil =>
    simp only [headerLoop, Except.ok.injEq] at h
    subst h
    simp
  | cons line rest ih =>
    by_cases hemp : line = []
    · rw [headerLoop_cons_empty hemp] at h
      rw [ih h]
      simp [List.countP_cons, isVesselRecord, hemp]
    · cases hsp : pySplit ',' line with
      | nil => exact absurd hsp (pySplit_ne_nil ',' line)
      | cons p0 ps =>
        by_cases hv : p0 = "vessel".data
        · subst hv
          cases ps with
          | nil =>
            rw [headerLoop_cons_vessel_err hemp hsp] at h
            cases h
          | cons v ps2 =>
            rw [headerLoop_cons_vessel hemp hsp] at h
            rw [ih h]
            have hx : isVesselLine ('*' :: ' ' :: 'V' :: 'e' :: 's' :: 's' :: 'e' :: 'l' :: ':' :: ' ' :: (v ++ ['\n'])) = true := by
              show isVesselLine ("* Vessel: ".data ++ (v ++ ['\n'])) = true
              exact isPrefixOf_append_self _ _
            have hr : isVesselRecord line = true := by
              simp [isVesselRecord, hemp, hsp]
            simp [List.countP_append, List.countP_cons, hx, hr]
            omega
        · by_cases hp : p0 = "project".data
          · subst hp
            cases ps with
            | nil =>
              rw [headerLoop_cons_project_err hemp hsp] at h
              cases h
            | cons p ps2 =>
              rw [headerLoop_cons_project hemp hsp] at h
              rw [ih h]
              have hx : isVesselLine ('*' :: ' ' :: 'P' :: 'r' :: 'o' :: 'j' :: 'e' :: 'c' :: 't' :: ':' :: ' ' :: (p ++ ['\n'])) = false := by
                show isVesselLine ("* Project: ".data ++ (p ++ ['\n'])) = false
                exact not_isPrefixOf_of_take_ne _ 10 (by decide) (by decide) (by decide)
              have hr : isVesselRecord line = false := by
                simp [isVesselRecord, hsp]
              simp [List.countP_append, List.countP_cons, hx, hr]
          · rw [headerLoop_cons_other hemp hsp hv hp] at h
            rw [ih h]
            have hr : isVesselRecord line = false := by
              simp [isVesselRecord, hsp, hv]
            simp [List.countP_cons, hr]

theorem headerLoop_countP_project {config : List Line} {hdr out : List Line}
    (h : headerLoop hdr config = .ok out) :
    out.countP isProjectLine
      = hdr.countP isProjectLine + config.countP isProjectRecord := by
  induction config generalizing hdr with
  | nil =>
    simp only [headerLoop, Except.ok.injEq] at h
    subst h
    simp
  | cons line rest ih =>
    by_cases hemp : line = []
    · rw [headerLoop_cons_empty hemp] at h
      rw [ih h]
      simp [List.countP_cons, isProjectRecord, hemp]
    · cases hsp : pySplit ',' line with
      | nil => exact absurd hsp (pySplit_ne_nil ',' line)
      | cons p0 ps =>
        by_cases hv : p0 = "vessel".data
        · subst hv
          cases ps with
          | nil =>
            rw [headerLoop_cons_vessel_err hemp hsp] at h
            cases h
          | cons v ps2 =>
            rw [headerLoop_cons_vessel hemp hsp] at h
            rw [ih h]
            have hx : isProjectLine ('*' :: ' ' :: 'V' :: 'e' :: 's' :: 's' :: 'e' :: 'l' :: ':' :: ' ' :: (v ++ ['\n'])) = false := by
              show isProjectLine ("* Vessel: ".data ++ (v ++ ['\n'])) = false
              exact not_isPrefixOf_of_take_ne _ 10 (by decide) (by decide) (by decide)
            have hr : isProjectRecord line = false := by
              simp [isProjectRecord, hsp]
            simp [List.countP_append, List.countP_cons, hx, hr]
        · by_cases hp : p0 = "project".data
          · subst hp
            cases ps with
            | nil =>
              rw [headerLoop_cons_project_err hemp hsp] at h
              cases h
            | cons p ps2 =>
              rw [headerLoop_cons_project hemp hsp] at h
              rw [ih h]
              have hx : isProjectLine ('*' :: ' ' :: 'P' :: 'r' :: 'o' :: 'j' :: 'e' :: 'c' :: 't' :: ':' :: ' ' :: (p ++ ['\n'])) = true := by
                show isProjectLine ("* Project: ".data ++ (p ++ ['\n'])) = true
                exact isPrefixOf_append_self _ _
              have hr : isProjectRecord line = true := by
                simp [isProjectRecord, hemp, hsp]
              simp [List.countP_append, List.countP_cons, hx, hr]
              omega
          · rw [headerLoop_cons_other hemp hsp hv hp] at h
            rw [ih h]
            have hr : isProjectRecord line = false := by
              simp [isProjectRecord, hsp, hp]
            simp [List.countP_cons, hr]

theorem create_header_countP_vessel {config : List Line} {system name : Line}
    {content : List Line}
    (h : create_header config system = .ok (name, content)) :
    content.countP isVesselLine = config.countP isVesselRecord := by
  unfold create_header at h
  cases hl : headerLoop [starsLine, officeLine] config with
  | error e =>
    rw [hl] at h
    simp at h
  | ok hdr =>
    rw [hl] at h
    simp only [Except.ok.injEq, Prod.mk.injEq] at h
    obtain ⟨hname, hcontent⟩ := h
    rw [← hcontent]
    rw [List.countP_append, headerLoop_countP_vessel hl]
    have h0 : ([starsLine, officeLine] : List Line).countP isVesselLine = 0 := by
      decide
    have hsys : isVesselLine
        ('*' :: ' ' :: 'S' :: 'y' :: 's' :: 't' :: 'e' :: 'm' :: ':' :: ' '
          :: (system ++ ['\n'])) = false := by
      show isVesselLine ("* System: ".data ++ (system ++ ['\n'])) = false
      exact not_isPrefixOf_of_take_ne _ 10 (by decide) (by decide) (by decide)
    have hst : isVesselLine starsLine = false := by decide
    rw [h0]
    simp [List.countP_cons, hsys, hst]

theorem create_header_countP_project {config : List Line} {system name : Line}
    {content : List Line}
    (h : create_header config system = .ok (name, content)) :
    content.countP isProjectLine = config.countP isProjectRecord := by
  unfold create_header at h
  cases hl : headerLoop [starsLine, officeLine] config with
  | error e =>
    rw [hl] at h
    simp at h
  | ok hdr =>
    rw [hl] at h
    simp only [Except.ok.injEq, Prod.mk.injEq] at h
    obtain ⟨hname, hcontent⟩ := h
    rw [← hcontent]
    rw [List.countP_append, headerLoop_countP_project hl]
    have h0 : ([starsLine, officeLine] : List Line).countP isProjectLine = 0 := by
      decide
    have hsys : isProjectLine
        ('*' :: ' ' :: 'S' :: 'y' :: 's' :: 't' :: 'e' :: 'm' :: ':' :: ' '
          :: (system ++ ['\n'])) = false := by
      show isProjectLine ("* System: ".data ++ (system ++ ['\n'])) = false
      exact not_isPrefixOf_of_take_ne _ 10 (by decide) (by decide) (by decide)
    have hst : isProjectLine starsLine = false := by decide
    rw [h0]
    simp [List.countP_cons, hsys, hst]

theorem dgpsLoop_cons_empty {config : List Line} {systems : List Line}
    {writes : List (Line × List Line)} {line : Line} {rest : List Line}
    (hemp : line = []) :
    dgpsLoop config systems writes (line :: rest)
    = dgpsLoop config systems writes rest := by
  simp [dgpsLoop, hemp]

theorem dgpsLoop_cons_system_short {config : List Line} {systems : List Line}
    {writes : List (Line × List Line)} {line : Line} {rest : List Line}
    (hemp : line ≠ []) (hsp : pySplit ',' line = ["system".data]) :
    dgpsLoop config systems writes (line :: rest)
    = .error "list index out of range" := by
  simp [dgpsLoop, hemp, hsp]

theorem dgpsLoop_cons_system_hdrfail {config : List Line} {systems : List Line}
    {writes : List (Line × List Line)} {line : Line} {rest : List Line}
    {s : Line} {ps : List Line} {e : String}
    (hemp : line ≠ []) (hsp : pySplit ',' line = "system".data :: s :: ps)
    (hch : create_header config s = .error e) :
    dgpsLoop config systems writes (line :: rest) = .error e := by
  simp [dgpsLoop, hemp, hsp, hch]

theorem dgpsLoop_cons_system {config : List Line} {systems : List Line}
    {writes : List (Line × List Line)} {line : Line} {rest : List Line}
    {s : Line} {ps : List Line} {w : Line × List Line}
    (hemp : line ≠ []) (hsp : pySplit ',' line = "system".data :: s :: ps)
    (hch : create_header config s = .ok w) :
    dgpsLoop config systems writes (line :: rest)
    = dgpsLoop config (systems ++ [s]) (writes ++ [w]) rest := by
  simp [dgpsLoop, hemp, hsp, hch]

theorem dgpsLoop_cons_other {config : List Line} {systems : List Line}
    {writes : List (Line × List Line)} {line : Line} {rest : List Line}
    {p0 : Line} {ps : List Line}
    (hemp : line ≠ []) (hsp : pySplit ',' line = p0 :: ps)
    (hs : p0 ≠ "system".data) :
    dgpsLoop config systems writes (line :: rest)
    = dgpsLoop config systems writes rest := by
  simp [dgpsLoop, hemp, hsp, hs]

theorem dgpsLoop_writes {config : List Line} {rest : List Line}
    {systems : List Line} {writes : List (Line × List Line)}
    {out : List Line × List (Line × List Line)}
    (h : dgpsLoop config systems writes rest = .ok out) :
    ∀ w ∈ out.2, w ∈ writes ∨ ∃ s, create_header config s = .ok w := by
  induction rest generalizing systems writes with
  | nil =>
    simp only [dgpsLoop, Except.ok.injEq] at h
    subst h
    exact fun w hw => Or.inl hw
  | cons line rest2 ih =>
    by_cases hemp : line = []
    · rw [dgpsLoop_cons_empty hemp] at h
      exact ih h
    · cases hsp : pySplit ',' line with
      | nil => exact absurd hsp (pySplit_ne_nil ',' line)
      | cons p0 ps =>
        by_cases hs : p0 = "system".data
        · subst hs
          cases ps with
          | nil =>
            rw [dgpsLoop_cons_system_short hemp hsp] at h
            cases h
          | cons s ps2 =>
            cases hch : create_header config s with
            | error e =>
              rw [dgpsLoop_cons_system_hdrfail hemp hsp hch] at h
              cases h
            | ok w0 =>
              rw [dgpsLoop_cons_system hemp hsp hch] at h
              intro w hw
              rcases ih h w hw with hmem | hex
              · rcases List.mem_append.mp hmem with h1 | h2
                · exact Or.inl h1
                · have hw0 : w = w0 := List.mem_singleton.mp h2
                  subst hw0
                  exact Or.inr ⟨s, hch⟩
              · exact Or.inr hex
        · rw [dgpsLoop_cons_other hemp hsp hs] at h
          exact ih h

/-- C6: for every configuration file, every header file written by a
`system` record contains one `* Vessel:` line per `vessel` record and one
`* Project:` line per `project` record counted over the whole file,
regardless of whether those records precede or follow the `system` record
(`create_header` re-reads the entire configuration file). -/
theorem c6_vessel_project_records_global {config : List Line}
    {systems : List Line} {writes : List (Line × List Line)}
    (h : get_dgps_systems config = .ok (systems, writes)) :
    ∀ w ∈ writes,
      w.2.countP isVesselLine = config.countP isVesselRecord ∧
      w.2.countP isProjectLine = config.countP isProjectRecord := by
  have h2 : dgpsLoop config [] [] config = .ok (systems, writes) := h
  intro w hw
  rcases dgpsLoop_writes h2 w hw with hmem | ⟨s, hcs⟩
  · simp at hmem
  · obtain ⟨n, c⟩ := w
    exact ⟨create_header_countP_vessel hcs, create_header_countP_project hcs⟩

/-- Witness for C6 at a config whose vessel record precedes and whose
project record follows the system record. -/
theorem c6_vessel_project_records_global_witness :
    ([starsLine, officeLine, "* Vessel: Ram\n\n".data, "* Project: P7\n\n".data,
      "* System: V1G1\n\n".data, starsLine] : List Line).countP isVesselLine
      = (["vessel,Ram\n".data, "system,V1G1\n".data, "project,P7\n".data]
          : List Line).countP isVesselRecord ∧
    ([starsLine, officeLine, "* Vessel: Ram\n\n".data, "* Project: P7\n\n".data,
      "* System: V1G1\n\n".data, starsLine] : List Line).countP isProjectLine
      = (["vessel,Ram\n".data, "system,V1G1\n".data, "project,P7\n".data]
          : List Line).countP isProjectRecord :=
  c6_vessel_project_records_global
    (show get_dgps_systems
        ["vessel,Ram\n".data, "system,V1G1\n".data, "project,P7\n".data]
      = .ok (["V1G1\n".data],
          [("V1G1\n.hdr".data,
            [starsLine, officeLine, "* Vessel: Ram\n\n".data, "* Project: P7\n\n".data,
             "* System: V1G1\n\n".data, starsLine])]) from rfl)
    ("V1G1\n.hdr".data,
     [starsLine, officeLine, "* Vessel: Ram\n\n".data, "* Project: P7\n\n".data,
      "* System: V1G1\n\n".data, starsLine])
    (by decide)
